import Mathlib

/-!
prometheus-p1-exporter: ingestion of P1 telegrams into Prometheus gauges

A shallow embedding of `main.go`: the conversion `floatValue`, the gauges
declared at package level, and the ingestion loop `readFromP1` with its
dispatch switch over the OBIS type of each telegram object.

The collaborators that `main.go` imports are modelled only as far as the
program uses them:

* `strconv.ParseFloat` (Go standard library), for bit size 64, function by
  function after its source: `special`, `readFloat`, `underscoreOK`,
  `atofHex`, `atof64exact`, `eiselLemire64` and the `decimal` fallback
  (`set`, `Shift`, `floatBits`); a Go string is its bytes and a `float64`
  is its bit pattern;
* `prometheus.Gauge` / `prometheus.GaugeVec` (`With`, `Set`);
* `gop1` telegrams, telegram objects and the OBIS type constants.

Goroutines, the HTTP handler and the serial connection are outside the
embedding: `readFromP1` is the sequential loop over the telegrams received.
-/

set_option exponentiation.threshold 2000
set_option maxRecDepth 8192

namespace P1Exporter

/-! ## float64 values -/

/-- A Go `float64`, held as its IEEE-754 binary64 bit pattern (the value of
`math.Float64bits`, which is also what a Prometheus gauge stores). -/
structure Float64 where
  bits : Nat
deriving DecidableEq, Repr

namespace Float64

/-- Positive zero, the Go constant `0` of type `float64`. -/
def zero : Float64 := ⟨0⟩

/-- The sign bit of a binary64 pattern. -/
def signBit (neg : Bool) : Nat := if neg then 2 ^ 63 else 0

/-- The value of `math.Inf(sign)`. -/
def inf (neg : Bool) : Float64 := ⟨signBit neg + 0x7FF * 2 ^ 52⟩

/-- The value of `math.NaN()`. -/
def nan : Float64 := ⟨0x7FF8000000000001⟩

/-- The loop of `bitLen`: `fuel` bounds the number of halvings. -/
def bitLenAux : Nat → Nat → Nat
  | 0, _ => 0
  | fuel + 1, n => if n = 0 then 0 else bitLenAux fuel (n / 2) + 1

/-- Number of binary digits of `n` (`bits.Len`): 0 for 0, else `⌊log₂ n⌋ + 1`. -/
def bitLen (n : Nat) : Nat := bitLenAux n n

/-- The binary exponent of the positive rational `num / den`: the `e` with
`2 ^ e ≤ num / den < 2 ^ (e + 1)`. -/
def binExp (num den : Nat) : Int :=
  let e0 : Int := (bitLen num : Int) - (bitLen den : Int)
  let below : Bool :=
    if 0 ≤ e0 then decide (num < den * 2 ^ e0.toNat)
    else decide (num * 2 ^ (-e0).toNat < den)
  if below then e0 - 1 else e0

/-- The integer nearest to `num / den * 2 ^ (52 - ee)`, ties to even: the
53-bit significand for the exponent `ee`. -/
def significand (num den : Nat) (ee : Int) : Nat :=
  let sh : Int := 52 - ee
  let n : Nat := if 0 ≤ sh then num * 2 ^ sh.toNat else num
  let d : Nat := if 0 ≤ sh then den else den * 2 ^ (-sh).toNat
  let q : Nat := n / d
  let r : Nat := n % d
  let up : Bool := decide (d < 2 * r) || (decide (2 * r = d) && decide (q % 2 = 1))
  if up then q + 1 else q

/-- The bit pattern for sign `neg`, significand `m` (below `2 ^ 53`) and
exponent `ex`, with the overflow flag: an exponent above 1023 gives an
infinity; a significand below `2 ^ 52` is a subnormal or zero. -/
def pack (neg : Bool) (m : Nat) (ex : Int) : Float64 × Bool :=
  if 1023 < ex then (inf neg, true)
  else if m < 2 ^ 52 then (⟨signBit neg + m⟩, false)
  else (⟨signBit neg + (ex + 1023).toNat * 2 ^ 52 + (m - 2 ^ 52)⟩, false)

/-- Nearest binary64 to the rational `num / den` (`den > 0`), ties to even,
with the sign `neg`. The second component is the overflow flag: the rounded
magnitude exceeds the largest finite binary64, and the result is an infinity.
Magnitudes too small for a subnormal round to zero without a flag. -/
def round (neg : Bool) (num den : Nat) : Float64 × Bool :=
  if num = 0 then (⟨signBit neg⟩, false)
  else
    let e : Int := binExp num den
    -- subnormals share the exponent of the smallest normal
    let ee : Int := if e < -1022 then -1022 else e
    let q : Nat := significand num den ee
    -- a significand rounded up to 2 ^ 53 moves to the next exponent
    if q = 2 ^ 53 then pack neg (2 ^ 52) (ee + 1) else pack neg q ee

end Float64

/-! ## strconv.ParseFloat -/

/-- A Go `string`: a sequence of bytes, not necessarily valid UTF-8. A Lean
string literal stands for its UTF-8 bytes. -/
structure GoString where
  bytes : List UInt8
deriving DecidableEq, Repr

/-- The Go string with the UTF-8 bytes of a Lean string. -/
def GoString.ofString (s : String) : GoString :=
  ⟨(s.toList.map String.utf8EncodeChar).flatten⟩

instance : Coe String GoString := ⟨GoString.ofString⟩

namespace strconv

/-- The two error values a `*strconv.NumError` of `ParseFloat` carries. -/
inductive NumError where
  | ErrSyntax
  | ErrRange
deriving DecidableEq, Repr

/-- Go `lower`: the ASCII lower-case form of a letter byte (`c | ('x' ^ 'X')`). -/
def lower (c : Nat) : Nat := c ||| 0x20

/-- Go `commonPrefixLenIgnoreCase`: the length of the common prefix of `s`
and the lower-case `pre`, upper-case ASCII letters of `s` folded. -/
def commonPrefixLenIgnoreCase : List Nat → List Nat → Nat
  | c :: s, p :: pre =>
    let c1 := if 65 ≤ c ∧ c ≤ 90 then c + 32 else c
    if c1 = p then commonPrefixLenIgnoreCase s pre + 1 else 0
  | _, _ => 0

/-- Go `special`: the infinities and NaN. Returns the value and the number of
bytes read. -/
def special (s : List Nat) : Option (Float64 × Nat) :=
  let infLen (t : List Nat) : Nat :=
    -- "infinity"
    let n := commonPrefixLenIgnoreCase t [105, 110, 102, 105, 110, 105, 116, 121]
    if 3 < n ∧ n < 8 then 3 else n
  match s with
  | [] => none
  | c :: t =>
    if c = 43 ∨ c = 45 then
      let n := infLen t
      if n = 3 ∨ n = 8 then some (Float64.inf (decide (c = 45)), 1 + n) else none
    else if c = 105 ∨ c = 73 then
      let n := infLen s
      if n = 3 ∨ n = 8 then some (Float64.inf false, n) else none
    else if c = 110 ∨ c = 78 then
      -- "nan"
      if commonPrefixLenIgnoreCase s [110, 97, 110] = 3 then some (Float64.nan, 3) else none
    else none

/-- Go `underscoreOK`: underscores only between digits, or between the base
prefix and a digit. -/
def underscoreOK (s : List Nat) : Bool :=
  let s1 := match s with
    | c :: t => if c = 45 ∨ c = 43 then t else s
    | [] => s
  let pre : Bool := match s1 with
    | a :: b :: _ => decide (a = 48) && (lower b = 98 || lower b = 111 || lower b = 120)
    | _ => false
  let hex : Bool := match s1 with
    | _ :: b :: _ => pre && lower b = 120
    | _ => false
  let s2 := if pre then s1.drop 2 else s1
  -- the previous character: 94 start, 48 digit or base prefix, 95 underscore, 33 other
  let last := s2.foldl (fun (acc : Option Nat) c =>
    match acc with
    | none => none
    | some i =>
      if (48 ≤ c ∧ c ≤ 57) ∨ (hex = true ∧ 97 ≤ lower c ∧ lower c ≤ 102) then some 48
      else if c = 95 then (if i ≠ 48 then none else some 95)
      else if i = 95 then none
      else some 33) (some (if pre then 48 else 94))
  match last with
  | none => false
  | some i => decide (i ≠ 95)

/-- The loop variables of the mantissa loop of Go `readFloat`. -/
structure Mant where
  mantissa : Nat := 0
  nd : Nat := 0
  ndMant : Nat := 0
  dp : Int := 0
  sawdot : Bool := false
  sawdigits : Bool := false
  underscores : Bool := false
  trunc : Bool := false
deriving DecidableEq, Repr

/-- The mantissa loop of Go `readFloat` (label `loop`): reads digits, one
point and underscores, and returns the loop variables with the unread input.
The mantissa takes the first `maxMantDigits` digits (19, or 16 when `hex`);
`trunc` records that a later non-zero digit was dropped. -/
def readMantissa (hex : Bool) : List Nat → Mant → Mant × List Nat
  | [], a => (a, [])
  | c :: s, a =>
    if c = 95 then readMantissa hex s { a with underscores := true }
    else if c = 46 then
      if a.sawdot then (a, c :: s)
      else readMantissa hex s { a with sawdot := true, dp := a.nd }
    else if 48 ≤ c ∧ c ≤ 57 then
      if c = 48 ∧ a.nd = 0 then
        readMantissa hex s { a with sawdigits := true, dp := a.dp - 1 }
      else if a.ndMant < (if hex then 16 else 19) then
        readMantissa hex s { a with
          sawdigits := true, nd := a.nd + 1, ndMant := a.ndMant + 1,
          mantissa := a.mantissa * (if hex then 16 else 10) + (c - 48) }
      else
        readMantissa hex s { a with
          sawdigits := true, nd := a.nd + 1, trunc := a.trunc || decide (c ≠ 48) }
    else if hex = true ∧ 97 ≤ lower c ∧ lower c ≤ 102 then
      if a.ndMant < 16 then
        readMantissa hex s { a with
          sawdigits := true, nd := a.nd + 1, ndMant := a.ndMant + 1,
          mantissa := a.mantissa * 16 + (lower c - 97 + 10) }
      else
        readMantissa hex s { a with sawdigits := true, nd := a.nd + 1, trunc := true }
    else (a, c :: s)

/-- The exponent-digit loop of Go `readFloat` and of `decimal.set`: digits
and underscores; the exponent stops growing once it has reached 10000.
Returns the exponent, whether an underscore was seen, and the unread input. -/
def readExpDigits : List Nat → Nat → Bool → Nat × Bool × List Nat
  | [], e, u => (e, u, [])
  | c :: s, e, u =>
    if c = 95 then readExpDigits s e true
    else if 48 ≤ c ∧ c ≤ 57 then
      readExpDigits s (if e < 10000 then e * 10 + (c - 48) else e) u
    else (e, u, c :: s)

/-- The optional exponent of Go `readFloat` and of `decimal.set`, when the
unread input starts with the exponent character: `none` is a malformed
exponent, else the signed exponent, whether an underscore was seen, and the
unread input. -/
def readExponent (s4 : List Nat) (underscores : Bool) : Option (Int × Bool × List Nat) :=
  match s4 with
  | [] => none
  | c1 :: t1 =>
    let esign : Int := if c1 = 45 then -1 else 1
    let s5 := if c1 = 43 ∨ c1 = 45 then t1 else s4
    match s5 with
    | [] => none
    | c2 :: _ =>
      if c2 < 48 ∨ 57 < c2 then none
      else
        let r := readExpDigits s5 0 underscores
        some ((r.1 : Int) * esign, r.2.1, r.2.2)

/-- The result of Go `readFloat` when `ok`: the number read is about
`mantissa * base ^ exp` (base 10, or base 2 when `hex`), negated when `neg`;
`trunc` says that digits beyond the mantissa were dropped; `n` bytes were
read. -/
structure Read where
  mantissa : Nat
  exp : Int
  neg : Bool
  trunc : Bool
  hex : Bool
  n : Nat
deriving DecidableEq, Repr

/-- Go `readFloat`: `none` is `ok == false`. -/
def readFloat (s : List Nat) : Option Read :=
  match s with
  | [] => none
  | c0 :: t0 =>
    let neg : Bool := decide (c0 = 45)
    let s1 := if c0 = 43 ∨ c0 = 45 then t0 else s
    let hex : Bool := match s1 with
      | a :: b :: _ :: _ => decide (a = 48) && decide (lower b = 120)
      | _ => false
    let s2 := if hex then s1.drop 2 else s1
    let m := readMantissa hex s2 {}
    let a := m.1
    let s3 := m.2
    if a.sawdigits = false then none
    else
      let dp0 : Int := if a.sawdot then a.dp else a.nd
      let dp1 : Int := if hex then dp0 * 4 else dp0
      let ndMant1 : Int := if hex then (a.ndMant : Int) * 4 else a.ndMant
      let expChar : Nat := if hex then 112 else 101
      let finish (dp : Int) (underscores : Bool) (rest : List Nat) : Option Read :=
        let n := s.length - rest.length
        if underscores = true ∧ underscoreOK (s.take n) = false then none
        else some { mantissa := a.mantissa, exp := if a.mantissa ≠ 0 then dp - ndMant1 else 0,
                    neg := neg, trunc := a.trunc, hex := hex, n := n }
      match s3 with
      | c :: s4 =>
        if lower c = expChar then
          match readExponent s4 a.underscores with
          | none => none
          | some (e, u, s6) => finish (dp1 + e) u s6
        else if hex then none
        else finish dp1 a.underscores s3
      | [] => if hex then none else finish dp1 a.underscores s3

/-- Assemble the bits of a binary64 as Go does: the low 52 bits of `mant`,
the exponent field `(exp - bias) & 0x7FF` with bias -1023, and the sign. -/
def assemble (mant : Nat) (exp : Int) (neg : Bool) : Float64 :=
  ⟨mant % 2 ^ 52 + ((exp + 1023) % 2 ^ 11).toNat * 2 ^ 52 + Float64.signBit neg⟩

/-! ### atofHex -/

/-- First loop of Go `atofHex`: shift a non-zero mantissa left until it has
55 bits. -/
def hexNormalize : Nat → Nat → Int → Nat × Int
  | 0, m, e => (m, e)
  | fuel + 1, m, e =>
    if m ≠ 0 ∧ m / 2 ^ 54 = 0 then hexNormalize fuel (m * 2) (e - 1) else (m, e)

/-- Second loop of Go `atofHex`: shift right, keeping a sticky low bit, until
the mantissa has at most 55 bits. -/
def hexShiftDown : Nat → Nat → Int → Nat × Int
  | 0, m, e => (m, e)
  | fuel + 1, m, e =>
    if m / 2 ^ 55 ≠ 0 then hexShiftDown fuel (m / 2 ||| m % 2) (e + 1) else (m, e)

/-- Third loop of Go `atofHex`: denormalize while the exponent is below
`minExp - 2`. -/
def hexDenormalize : Nat → Nat → Int → Nat × Int
  | 0, m, e => (m, e)
  | fuel + 1, m, e =>
    if 1 < m ∧ e < -1022 - 2 then hexDenormalize fuel (m / 2 ||| m % 2) (e + 1) else (m, e)

/-- Go `atofHex` up to the range check: the rounded mantissa and its
exponent (the bias, -1023, for a denormal or zero). -/
def atofHexRound (mantissa : Nat) (exp : Int) (trunc : Bool) : Nat × Int :=
  let a := hexNormalize 64 mantissa (exp + 52)
  let m1 := if trunc then a.1 ||| 1 else a.1
  let b := hexShiftDown 64 m1 a.2
  let c := hexDenormalize 64 b.1 b.2
  let round := c.1 % 4 ||| (c.1 / 4) % 2
  let m2 := c.1 / 4
  let e2 := c.2 + 2
  let m3 := if round = 3 then (if m2 + 1 = 2 ^ 53 then (m2 + 1) / 2 else m2 + 1) else m2
  let e3 := if round = 3 ∧ m2 + 1 = 2 ^ 53 then e2 + 1 else e2
  (m3, if m3 / 2 ^ 52 = 0 then -1023 else e3)

/-- Go `atofHex` for binary64: the value of `mantissa * 2 ^ exp`, rounded to
nearest even, and whether it overflowed (`ErrRange`, with an infinity): the
exponent is above `maxExp`, 1023. -/
def atofHex (mantissa : Nat) (exp : Int) (neg trunc : Bool) : Float64 × Bool :=
  let r := atofHexRound mantissa exp trunc
  if 1023 < r.2 then (assemble (2 ^ 52) (1023 + 1) neg, true)
  else (assemble r.1 r.2 neg, false)

/-! ### Fast paths -/

/-- Go `atof64exact`: when the mantissa is below `2 ^ 53` and the power of ten
is small, the value is one exact float64 multiplication or division away,
which rounds the exact product or quotient to nearest even. -/
def atof64exact (mantissa : Nat) (exp : Int) (neg : Bool) : Option Float64 :=
  if mantissa / 2 ^ 52 ≠ 0 then none
  else if exp = 0 then some (Float64.round neg mantissa 1).1
  else if 0 < exp ∧ exp ≤ 15 + 22 then
    -- `f *= float64pow10[exp-22]` is exact when the product is at most 1e15
    if 22 < exp ∧ 10 ^ 15 < mantissa * 10 ^ (exp - 22).toNat then none
    else some (Float64.round neg (mantissa * 10 ^ exp.toNat) 1).1
  else if exp < 0 ∧ -22 ≤ exp then some (Float64.round neg mantissa (10 ^ (-exp).toNat)).1
  else none

/-- The row of Go `detailedPowersOfTen` for `10 ^ e`: the 128-bit mantissa
of the power, rounded down. -/
def detailedPowerOfTen (e : Int) : Nat :=
  if 0 ≤ e then
    let v := 10 ^ e.toNat
    let bl := Float64.bitLen v
    if 128 < bl then v / 2 ^ (bl - 128) else v * 2 ^ (128 - bl)
  else
    let d := 10 ^ (-e).toNat
    let k := 127 + Float64.bitLen d
    let m := 2 ^ k / d
    if m < 2 ^ 128 then m else 2 ^ (k - 1) / d

/-- Go `eiselLemire64`: `none` is `ok == false`. -/
def eiselLemire64 (man : Nat) (exp10 : Int) (neg : Bool) : Option Float64 :=
  if man = 0 then some ⟨Float64.signBit neg⟩
  else if exp10 < -348 ∨ 347 < exp10 then none
  else
    let clz := 64 - Float64.bitLen man
    let man1 := man * 2 ^ clz
    let retExp2 : Int := 217706 * exp10 / 65536 + 64 + 1023 - clz
    let pow := detailedPowerOfTen exp10
    let powHi := pow / 2 ^ 64
    let powLo := pow % 2 ^ 64
    let x := man1 * powHi
    let xHi := x / 2 ^ 64
    let xLo := x % 2 ^ 64
    let wider : Bool := decide (xHi % 512 = 511) && decide (2 ^ 64 ≤ xLo + man1)
    let y := man1 * powLo
    let yHi := y / 2 ^ 64
    let yLo := y % 2 ^ 64
    let mergedLo := (xLo + yHi) % 2 ^ 64
    let mergedHi := if mergedLo < xLo then (xHi + 1) % 2 ^ 64 else xHi
    if wider = true ∧ mergedHi % 512 = 511 ∧ mergedLo = 2 ^ 64 - 1 ∧ 2 ^ 64 ≤ yLo + man1 then none
    else
      let xHi1 := if wider then mergedHi else xHi
      let xLo1 := if wider then mergedLo else xLo
      let msb := xHi1 / 2 ^ 63
      let retMantissa := xHi1 / 2 ^ (msb + 9)
      let retExp2a : Int := retExp2 - (if msb = 0 then 1 else 0)
      if xLo1 = 0 ∧ xHi1 % 512 = 0 ∧ retMantissa % 4 = 1 then none
      else
        let rm1 := (retMantissa + retMantissa % 2) / 2
        let rm2 := if rm1 / 2 ^ 53 > 0 then rm1 / 2 else rm1
        let retExp2b : Int := if rm1 / 2 ^ 53 > 0 then retExp2a + 1 else retExp2a
        if retExp2b ≤ 0 ∨ 0x7FF ≤ retExp2b then none
        else some ⟨retExp2b.toNat * 2 ^ 52 + rm2 % 2 ^ 52 + Float64.signBit neg⟩

/-! ### The decimal fallback -/

/-- Go `decimal`: the digits `d` (most significant first, at most 800), the
decimal point `dp` (the value is `0.d × 10 ^ dp`), the sign, and `trunc`:
non-zero digits were dropped beyond the 800 kept. -/
structure Decimal where
  d : List Nat := []
  dp : Int := 0
  neg : Bool := false
  trunc : Bool := false
deriving DecidableEq, Repr

/-- The loop variables of the digit loop of Go `decimal.set`; `rd` holds the
digits read, last first. -/
structure SetLoop where
  rd : List Nat := []
  nd : Nat := 0
  dp : Int := 0
  sawdot : Bool := false
  sawdigits : Bool := false
  trunc : Bool := false
deriving DecidableEq, Repr

/-- The digit loop of Go `decimal.set`: `none` is the return on a second
point. Digits beyond the 800th are not stored and not counted. -/
def setDigits : List Nat → SetLoop → Option (SetLoop × List Nat)
  | [], a => some (a, [])
  | c :: s, a =>
    if c = 95 then setDigits s a
    else if c = 46 then
      if a.sawdot then none
      else setDigits s { a with sawdot := true, dp := a.nd }
    else if 48 ≤ c ∧ c ≤ 57 then
      if c = 48 ∧ a.nd = 0 then
        setDigits s { a with sawdigits := true, dp := a.dp - 1 }
      else if a.nd < 800 then
        setDigits s { a with sawdigits := true, rd := (c - 48) :: a.rd, nd := a.nd + 1 }
      else
        setDigits s { a with sawdigits := true, trunc := a.trunc || decide (c ≠ 48) }
    else some (a, c :: s)

/-- Go `decimal.set`: `none` is `ok == false`. -/
def Decimal.set (s : List Nat) : Option Decimal :=
  match s with
  | [] => none
  | c0 :: t0 =>
    let neg : Bool := decide (c0 = 45)
    let s1 := if c0 = 43 ∨ c0 = 45 then t0 else s
    match setDigits s1 {} with
    | none => none
    | some (a, s3) =>
      if a.sawdigits = false then none
      else
        let dp0 : Int := if a.sawdot then a.dp else a.nd
        match s3 with
        | c :: s4 =>
          if lower c = 101 then
            match readExponent s4 false with
            | none => none
            | some (e, _, s6) =>
              if s6 ≠ [] then none
              else some { d := a.rd.reverse, dp := dp0 + e, neg := neg, trunc := a.trunc }
          else none
        | [] => some { d := a.rd.reverse, dp := dp0, neg := neg, trunc := a.trunc }

/-- Go `trim`: drop the trailing zeros; a decimal without digits has its
point at 0. -/
def Decimal.trim (a : Decimal) : Decimal :=
  let d := (a.d.reverse.dropWhile fun x => x = 0).reverse
  { a with d := d, dp := if d = [] then 0 else a.dp }

/-- The "put down extra digits" loop of Go `leftShift`: the digits of the
carry, most significant first. -/
def carryDigits : Nat → Nat → List Nat → List Nat
  | 0, _, acc => acc
  | fuel + 1, n, acc => if n = 0 then acc else carryDigits fuel (n / 10) (n % 10 :: acc)

/-- Go `leftShift`: multiply by `2 ^ k` (`k ≤ 60`). The product is written
digit by digit from the right; the number of digits gained is what the table
`leftcheats` of the source gives (`delta`); digits beyond the 800th are
dropped, setting `trunc` when one is not zero. -/
def leftShift (a : Decimal) (k : Nat) : Decimal :=
  let r := a.d.foldr (fun dig (acc : List Nat × Nat) =>
    let n := acc.2 + dig * 2 ^ k
    (n % 10 :: acc.1, n / 10)) ([], 0)
  let full := carryDigits 64 r.2 r.1
  let delta : Int := (full.length : Int) - a.d.length
  Decimal.trim { a with
    d := full.take 800
    dp := a.dp + delta
    trunc := a.trunc || (full.drop 800).any fun x => x ≠ 0 }

/-- First loop of Go `rightShift`: pick up leading digits until the
accumulator reaches `2 ^ k`, reading zeros past the last digit. Returns the
accumulator, the read index `r`, and the digits not yet read. -/
def pickUp (k : Nat) : Nat → List Nat → Nat → Nat → Nat × Nat × List Nat
  | 0, ds, n, r => (n, r, ds)
  | fuel + 1, ds, n, r =>
    if n / 2 ^ k ≠ 0 then (n, r, ds)
    else
      match ds with
      | c :: rest => pickUp k fuel rest (n * 10 + c) (r + 1)
      | [] => if n = 0 then (0, r, []) else pickUp k fuel [] (n * 10) (r + 1)

/-- Second loop of Go `rightShift`: for each digit read, put down a digit of
the quotient. Returns the quotient digits, last first, and the accumulator. -/
def putDown (k : Nat) : List Nat → Nat → List Nat → List Nat × Nat
  | [], n, out => (out, n)
  | c :: rest, n, out => putDown k rest (n % 2 ^ k * 10 + c) (n / 2 ^ k :: out)

/-- Third loop of Go `rightShift`: put down the digits of the remainder; with
800 digits written the rest are dropped, setting `trunc` when one is not
zero. Returns the quotient digits, last first, and `trunc`. -/
def putDownExtra (k : Nat) : Nat → Nat → List Nat → Bool → List Nat × Bool
  | 0, _, out, t => (out, t)
  | fuel + 1, n, out, t =>
    if n = 0 then (out, t)
    else if out.length < 800 then
      putDownExtra k fuel (n % 2 ^ k * 10) (n / 2 ^ k :: out) t
    else putDownExtra k fuel (n % 2 ^ k * 10) out (t || decide (0 < n / 2 ^ k))

/-- Go `rightShift`: divide by `2 ^ k` (`0 < k ≤ 60`). -/
def rightShift (a : Decimal) (k : Nat) : Decimal :=
  let p := pickUp k (a.d.length + 64) a.d 0 0
  let n := p.1
  let r := p.2.1
  if n = 0 then { a with d := [] }
  else
    let q := putDown k p.2.2 n []
    let e := putDownExtra k 128 q.2 q.1 a.trunc
    Decimal.trim { a with d := e.1.reverse, dp := a.dp - ((r : Int) - 1), trunc := e.2 }

/-- The loops of Go `decimal.Shift`: shifts of more than 60 bits are done 60
bits at a time. -/
def shiftBy (left : Bool) : Nat → Decimal → Nat → Decimal
  | 0, a, _ => a
  | fuel + 1, a, k =>
    if 60 < k then shiftBy left fuel (if left then leftShift a 60 else rightShift a 60) (k - 60)
    else if left then leftShift a k else rightShift a k

/-- Go `decimal.Shift`: multiply by `2 ^ k`, `k` of either sign. -/
def Decimal.Shift (a : Decimal) (k : Int) : Decimal :=
  if a.d = [] then a
  else if 0 < k then shiftBy true (k.toNat / 60 + 1) a k.toNat
  else if k < 0 then shiftBy false ((-k).toNat / 60 + 1) a (-k).toNat
  else a

/-- Go `shouldRoundUp`: whether rounding `a` to `nd` digits rounds up (to
even on an exact half, up when digits were truncated). -/
def shouldRoundUp (a : Decimal) (nd : Int) : Bool :=
  if nd < 0 ∨ (a.d.length : Int) ≤ nd then false
  else
    let i := nd.toNat
    if a.d.getD i 0 = 5 ∧ i + 1 = a.d.length then
      if a.trunc then true
      else decide (0 < i) && decide ((a.d.getD (i - 1) 0) % 2 ≠ 0)
    else decide (5 ≤ a.d.getD i 0)

/-- Go `decimal.RoundedInteger`: the integer part, rounded, as a `uint64`. -/
def Decimal.RoundedInteger (a : Decimal) : Nat :=
  if 20 < a.dp then 0xFFFFFFFFFFFFFFFF
  else
    let dp := a.dp.toNat
    let n := (a.d.take dp).foldl (fun n c => n * 10 + c) 0
    let n1 := n * 10 ^ (dp - a.d.length)
    (if shouldRoundUp a a.dp then n1 + 1 else n1) % 2 ^ 64

/-- The table `powtab` of Go `floatBits`: the binary shift for a decimal
point at `dp`. -/
def powtab (dp : Nat) : Nat :=
  ([1, 3, 6, 9, 13, 16, 19, 23, 26] : List Nat).getD dp 27

/-- First scaling loop of Go `floatBits`: while the point is right of the
first digit, shift right. -/
def scaleDown : Nat → Decimal → Int → Decimal × Int
  | 0, d, exp => (d, exp)
  | fuel + 1, d, exp =>
    if 0 < d.dp then
      let n := powtab d.dp.toNat
      scaleDown fuel (d.Shift (-(n : Int))) (exp + n)
    else (d, exp)

/-- Second scaling loop of Go `floatBits`: while the value is below 0.5,
shift left. -/
def scaleUp : Nat → Decimal → Int → Decimal × Int
  | 0, d, exp => (d, exp)
  | fuel + 1, d, exp =>
    if d.dp < 0 ∨ (d.dp = 0 ∧ d.d.getD 0 0 < 5) then
      let n := powtab (-d.dp).toNat
      scaleUp fuel (d.Shift n) (exp - n)
    else (d, exp)

/-- Go `decimal.floatBits` for binary64, up to its two exits: `none` is
`goto overflow`, `some (mant, exp)` is `goto out`. -/
def Decimal.mantExp (d : Decimal) : Option (Nat × Int) :=
  if d.d = [] then some (0, -1023)
  else if 310 < d.dp then none
  else if d.dp < -330 then some (0, -1023)
  else
    let a := scaleDown 2048 d 0
    let b := scaleUp 2048 a.1 a.2
    let exp1 : Int := b.2 - 1
    let d2 := if exp1 < -1022 then b.1.Shift (-(-1022 - exp1)) else b.1
    let exp2 : Int := if exp1 < -1022 then -1022 else exp1
    if 2047 ≤ exp2 + 1023 then none
    else
      let d3 := d2.Shift 53
      let mant := d3.RoundedInteger
      let mant1 := if mant = 2 ^ 53 then mant / 2 else mant
      let exp3 : Int := if mant = 2 ^ 53 then exp2 + 1 else exp2
      if mant = 2 ^ 53 ∧ 2047 ≤ exp3 + 1023 then none
      else some (mant1, if (mant1 / 2 ^ 52) % 2 = 0 then -1023 else exp3)

/-- Go `decimal.floatBits` for binary64: the bits and the overflow flag. At
`overflow` the mantissa is 0 and the exponent 1024, an infinity. -/
def Decimal.floatBits (d : Decimal) : Float64 × Bool :=
  match d.mantExp with
  | none => (assemble 0 1024 d.neg, true)
  | some (mant, exp) => (assemble mant exp d.neg, false)

/-! ### ParseFloat -/

/-- The hexadecimal branch of Go `atof64`: the result of `atofHex`, with
`ErrRange` on overflow. -/
def hexPath (r : Read) : Float64 × Option NumError :=
  let h := atofHex r.mantissa r.exp r.neg r.trunc
  (h.1, if h.2 then some .ErrRange else none)

/-- The fast paths of Go `atof64` (`optimize` is true): `atof64exact` when no
digit was dropped, else `eiselLemire64`, which for a truncated mantissa must
give the same float for `mantissa + 1`. `none` falls through to the decimal
fallback. -/
def fastPath (r : Read) : Option Float64 :=
  match (if r.trunc then none else atof64exact r.mantissa r.exp r.neg) with
  | some f => some f
  | none =>
    match eiselLemire64 r.mantissa r.exp r.neg with
    | none => none
    | some f =>
      if r.trunc = false then some f
      else if eiselLemire64 (r.mantissa + 1) r.exp r.neg = some f then some f
      else none

/-- The slow fallback of Go `atof64` on the bytes read: `decimal.set`, then
`floatBits`, with `ErrRange` on overflow. -/
def slowPath (read : List Nat) : Float64 × Option NumError :=
  match Decimal.set read with
  | none => (Float64.zero, some .ErrSyntax)
  | some d => (d.floatBits.1, if d.floatBits.2 then some .ErrRange else none)

/-- The conversion of Go `atof64` once `readFloat` has read a number from
the front of `s`. -/
def convert (s : List Nat) (r : Read) : Float64 × Option NumError :=
  if r.hex then hexPath r
  else
    match fastPath r with
    | some f => (f, none)
    | none => slowPath (s.take r.n)

/-- Go `atof64` (through `parseFloatPrefix`): value, bytes read, error. With
a syntax error the value is zero (the byte count, which `ParseFloat` then
ignores, is given as 0). -/
def atof64 (s : List Nat) : Float64 × Nat × Option NumError :=
  match special s with
  | some (val, n) => (val, n, none)
  | none =>
    match readFloat s with
    | none => (Float64.zero, 0, some .ErrSyntax)
    | some r => ((convert s r).1, r.n, (convert s r).2)

/-- Go `strconv.ParseFloat(s, 64)`: the result of `atof64`, unless bytes are
left unread after a number, which is a syntax error with the value zero. -/
def ParseFloat (s : GoString) : Float64 × Option NumError :=
  let b := s.bytes.map UInt8.toNat
  let res := atof64 b
  if res.2.1 ≠ b.length ∧ res.2.2 ≠ some .ErrSyntax then (Float64.zero, some .ErrSyntax)
  else (res.1, res.2.2)

end strconv

/-- Go `floatValue` (`main.go`): the number `strconv.ParseFloat` returns, its
error dropped. -/
def floatValue (input : GoString) : Float64 :=
  (strconv.ParseFloat input).1

/-! ## Prometheus gauges -/

/-- The identity of one exposed time series: the metric name and its
label pairs, as in `name{label="value"}`. -/
structure MetricKey where
  name : String
  labels : List (String × String)
deriving DecidableEq, Repr

/-- The values held by the registered gauges: `none` for a series that does
not exist (a child of a gauge vector that no `With` call has created). -/
abbrev MetricState := MetricKey → Option Float64

namespace prometheus

/-- The fields of `prometheus.GaugeOpts` that `main.go` sets. -/
structure GaugeOpts where
  Name : String
  Help : String
deriving DecidableEq, Repr

/-- A `prometheus.Gauge`: a handle on the series it sets. -/
structure Gauge where
  key : MetricKey
deriving DecidableEq, Repr

/-- A `*prometheus.GaugeVec`: gauges that share a name and differ in the
values of the declared label names. -/
structure GaugeVec where
  opts : GaugeOpts
  labelNames : List String
deriving DecidableEq, Repr

/-- A `prometheus.Labels` map, as its list of pairs. -/
abbrev Labels := List (String × String)

/-- `promauto.NewGauge`. -/
def NewGauge (opts : GaugeOpts) : Gauge := ⟨⟨opts.Name, []⟩⟩

/-- `promauto.NewGaugeVec`. -/
def NewGaugeVec (opts : GaugeOpts) (labelNames : List String) : GaugeVec :=
  ⟨opts, labelNames⟩

/-- `GaugeVec.With`: the child gauge for `labels`. `none` is the panic of
`With` when `labels` does not have exactly the declared label names. -/
def GaugeVec.With (v : GaugeVec) (labels : Labels) : Option Gauge :=
  if labels.length = v.labelNames.length ∧
      (v.labelNames.all fun n => (labels.lookup n).isSome) = true then
    some ⟨⟨v.opts.Name, v.labelNames.map fun n => (n, (labels.lookup n).getD "")⟩⟩
  else none

/-- `Gauge.Set`: overwrite the value of the gauge's series. -/
def Gauge.Set (g : Gauge) (val : Float64) (st : MetricState) : MetricState :=
  fun k => if k = g.key then some val else st k

end prometheus

open prometheus

/-! ## The package-level gauges of `main.go` -/

def powerConsumed : GaugeVec :=
  NewGaugeVec ⟨"instantaneous_power_consumed", "Instantaneous power consumed per phase in W"⟩
    ["phase"]

def powerGenerated : GaugeVec :=
  NewGaugeVec ⟨"instantaneous_power_generated", "Instantaneous power generated per phase in W"⟩
    ["phase"]

def currentConsumed : GaugeVec :=
  NewGaugeVec ⟨"instantaneous_current", "Instantaneous current per phase in A"⟩ ["phase"]

def voltageConsumed : GaugeVec :=
  NewGaugeVec ⟨"instantaneous_voltage", "Instantaneous voltage per phase in V"⟩ ["phase"]

def tariffIndicator : Gauge :=
  NewGauge ⟨"tariff_indicator", "Tariff indicator electricity"⟩

def electricityConsumed : GaugeVec :=
  NewGaugeVec ⟨"electricity_consumed", "Electricity consumed per tariff in Wh"⟩ ["tariff"]

def electricityGenerated : GaugeVec :=
  NewGaugeVec ⟨"electricity_generated", "Electricity generated per tariff in Wh"⟩ ["tariff"]

def gasConsumed : Gauge :=
  NewGauge ⟨"gas_consumed", "Gas consumed in m3"⟩

/-- The gauge values when the process starts: the two plain gauges are
registered at zero, the gauge vectors have no child yet. -/
def initialState : MetricState :=
  fun k => if k = tariffIndicator.key ∨ k = gasConsumed.key then some Float64.zero else none

/-! ## gop1 telegrams -/

namespace gop1

/-- The `gop1.OBISType` constants that `main.go` names in its switch; every
other value of the type is `other n`. -/
inductive OBISType where
  | OBISTypeInstantaneousPowerDeliveredL1
  | OBISTypeInstantaneousPowerDeliveredL2
  | OBISTypeInstantaneousPowerDeliveredL3
  | OBISTypeInstantaneousPowerGeneratedL1
  | OBISTypeInstantaneousPowerGeneratedL2
  | OBISTypeInstantaneousPowerGeneratedL3
  | OBISTypeInstantaneousCurrentL1
  | OBISTypeInstantaneousCurrentL2
  | OBISTypeInstantaneousCurrentL3
  | OBISTypeInstantaneousVoltageL1
  | OBISTypeInstantaneousVoltageL2
  | OBISTypeInstantaneousVoltageL3
  | OBISTypeElectricityTariffIndicator
  | OBISTypeElectricityDeliveredTariff1
  | OBISTypeElectricityDeliveredTariff2
  | OBISTypeElectricityGeneratedTariff1
  | OBISTypeElectricityGeneratedTariff2
  | OBISTypeGasDelivered
  | other (n : Nat)
deriving DecidableEq, Repr

/-- `gop1.TelegramValue`. -/
structure TelegramValue where
  Value : GoString
  Unit : GoString
deriving DecidableEq, Repr

/-- `gop1.TelegramObject`: one reading of a telegram (`Type_` is the Go
field `Type`). -/
structure TelegramObject where
  Type_ : OBISType
  Values : List TelegramValue
deriving DecidableEq, Repr

/-- `gop1.Telegram`, the field `main.go` reads. -/
structure Telegram where
  Objects : List TelegramObject
deriving DecidableEq, Repr

end gop1

open gop1 gop1.OBISType

/-! ## readFromP1 -/

/-- One `case` of the switch in `readFromP1`. Every case has the shape
`<gauge>.Set(floatValue(obj.Values[<slot>].Value))`: `gauge` is the gauge
expression (`none` when its `With` call panics) and `slot` the index. -/
structure Case where
  gauge : Option Gauge
  slot : Nat
deriving DecidableEq, Repr

/-- The switch on `obj.Type` in `readFromP1`, case by case; `none` when no
case matches. -/
def switchCase : OBISType → Option Case
  | OBISTypeInstantaneousPowerDeliveredL1 => some ⟨powerConsumed.With [("phase", "l1")], 0⟩
  | OBISTypeInstantaneousPowerDeliveredL2 => some ⟨powerConsumed.With [("phase", "l2")], 0⟩
  | OBISTypeInstantaneousPowerDeliveredL3 => some ⟨powerConsumed.With [("phase", "l3")], 0⟩
  | OBISTypeInstantaneousPowerGeneratedL1 => some ⟨powerGenerated.With [("phase", "l1")], 0⟩
  | OBISTypeInstantaneousPowerGeneratedL2 => some ⟨powerGenerated.With [("phase", "l2")], 0⟩
  | OBISTypeInstantaneousPowerGeneratedL3 => some ⟨powerGenerated.With [("phase", "l3")], 0⟩
  | OBISTypeInstantaneousCurrentL1 => some ⟨currentConsumed.With [("phase", "l1")], 0⟩
  | OBISTypeInstantaneousCurrentL2 => some ⟨currentConsumed.With [("phase", "l2")], 0⟩
  | OBISTypeInstantaneousCurrentL3 => some ⟨currentConsumed.With [("phase", "l3")], 0⟩
  | OBISTypeInstantaneousVoltageL1 => some ⟨voltageConsumed.With [("phase", "l1")], 0⟩
  | OBISTypeInstantaneousVoltageL2 => some ⟨voltageConsumed.With [("phase", "l2")], 0⟩
  | OBISTypeInstantaneousVoltageL3 => some ⟨voltageConsumed.With [("phase", "l3")], 0⟩
  | OBISTypeElectricityTariffIndicator => some ⟨some tariffIndicator, 0⟩
  | OBISTypeElectricityDeliveredTariff1 => some ⟨electricityConsumed.With [("tariff", "1")], 0⟩
  | OBISTypeElectricityDeliveredTariff2 => some ⟨electricityConsumed.With [("tariff", "2")], 0⟩
  | OBISTypeElectricityGeneratedTariff1 => some ⟨electricityGenerated.With [("tariff", "1")], 0⟩
  | OBISTypeElectricityGeneratedTariff2 => some ⟨electricityGenerated.With [("tariff", "2")], 0⟩
  | OBISTypeGasDelivered => some ⟨some gasConsumed, 1⟩
  | other _ => none

/-- How a run of the loop ends, with the gauge values at that moment:
`done` when the input is used up, `panic` when a Go run-time panic (an index
out of range, or the panic of `With`) stops the goroutine. -/
inductive Outcome where
  | done (st : MetricState)
  | panic (st : MetricState)

/-- The gauge values an outcome leaves. -/
def Outcome.state : Outcome → MetricState
  | .done st => st
  | .panic st => st

/-- Whether the outcome is a run-time panic. -/
def Outcome.panicked : Outcome → Bool
  | .done _ => false
  | .panic _ => true

/-- The body of the inner loop of `readFromP1`, for one telegram object:
the debug log of `obj.Values[0].Value`, then the switch. -/
def readObject (st : MetricState) (obj : TelegramObject) : Outcome :=
  match obj.Values[0]? with
  | none => .panic st
  | some _ =>
    match switchCase obj.Type_ with
    | none => .done st
    | some c =>
      match c.gauge, obj.Values[c.slot]? with
      | some g, some v => .done (g.Set (floatValue v.Value) st)
      | _, _ => .panic st

/-- The inner loop of `readFromP1`: `for _, obj := range tgram.Objects`. -/
def readObjects : MetricState → List TelegramObject → Outcome
  | st, [] => .done st
  | st, obj :: objs =>
    match readObject st obj with
    | .done st1 => readObjects st1 objs
    | .panic st1 => .panic st1

/-- The loop of `readFromP1`, `for tgram := range p1.Incoming`, over the
telegrams the channel delivers, from the gauge values `st` (the opening of
the serial port before the loop is not part of the embedding). -/
def readFromP1 : MetricState → List Telegram → Outcome
  | st, [] => .done st
  | st, tgram :: incoming =>
    match readObjects st tgram.Objects with
    | .done st1 => readFromP1 st1 incoming
    | .panic st1 => .panic st1

/-! ## Derived notions used to state the properties -/

/-- The series the switch sets for an OBIS type: the key of the gauge of its
`case`, if it has one. -/
def keyOf (t : OBISType) : Option MetricKey :=
  match switchCase t with
  | some c => c.gauge.map fun g => g.key
  | none => none

/-- The index into `obj.Values` that the `case` of an OBIS type reads. -/
def slotOf (t : OBISType) : Option Nat :=
  (switchCase t).map fun c => c.slot

/-- The value list of the object reaches every index the loop body reads for
it: it is not empty (index 0, for the debug log and for seventeen cases), and
it has two values when the object is gas-delivered (index 1). -/
def longEnough (obj : TelegramObject) : Prop :=
  1 ≤ obj.Values.length ∧ (obj.Type_ = OBISTypeGasDelivered → 2 ≤ obj.Values.length)

instance (obj : TelegramObject) : Decidable (longEnough obj) := by
  unfold longEnough
  infer_instance

/-- What the loop body does to the gauges for one object: `none` is a panic,
`some none` sets no gauge, `some (some (g, val))` is `g.Set(val)`. -/
def effect (obj : TelegramObject) : Option (Option (Gauge × Float64)) :=
  match obj.Values[0]? with
  | none => none
  | some _ =>
    match switchCase obj.Type_ with
    | none => some none
    | some c =>
      match c.gauge, obj.Values[c.slot]? with
      | some g, some v => some (some (g, floatValue v.Value))
      | _, _ => none

/-- The gauge values after the effect of one object that does not panic. -/
def applyEffect (st : MetricState) (obj : TelegramObject) : MetricState :=
  match effect obj with
  | some (some (g, val)) => g.Set val st
  | _ => st

/-- The converted value of an object: `floatValue` of the text in the slot
that the case of its type reads. -/
def converted (obj : TelegramObject) : Option Float64 :=
  match slotOf obj.Type_ with
  | some i => obj.Values[i]?.map fun v => floatValue v.Value
  | none => none

/-- The objects of a sequence of telegrams, in the order the loop meets them. -/
def readings (incoming : List Telegram) : List TelegramObject :=
  (incoming.map fun tgram => tgram.Objects).flatten

/-- The last object of a sequence whose type maps to the key `k`. -/
def lastWriter (k : MetricKey) (objs : List TelegramObject) : Option TelegramObject :=
  (objs.filter fun obj => decide (keyOf obj.Type_ = some k)).getLast?

/-- The OBIS types that have a `case` in the switch, in source order. -/
def mappedCodes : List OBISType :=
  [OBISTypeInstantaneousPowerDeliveredL1, OBISTypeInstantaneousPowerDeliveredL2,
   OBISTypeInstantaneousPowerDeliveredL3, OBISTypeInstantaneousPowerGeneratedL1,
   OBISTypeInstantaneousPowerGeneratedL2, OBISTypeInstantaneousPowerGeneratedL3,
   OBISTypeInstantaneousCurrentL1, OBISTypeInstantaneousCurrentL2,
   OBISTypeInstantaneousCurrentL3, OBISTypeInstantaneousVoltageL1,
   OBISTypeInstantaneousVoltageL2, OBISTypeInstantaneousVoltageL3,
   OBISTypeElectricityTariffIndicator, OBISTypeElectricityDeliveredTariff1,
   OBISTypeElectricityDeliveredTariff2, OBISTypeElectricityGeneratedTariff1,
   OBISTypeElectricityGeneratedTariff2, OBISTypeGasDelivered]

/-- The key vocabulary as the specification lists it: four per-phase metrics
with phase l1, l2, l3, two per-tariff metrics with tariff 1, 2, and the two
metrics without a label. -/
def vocabulary : List MetricKey :=
  [⟨"instantaneous_power_consumed", [("phase", "l1")]⟩,
   ⟨"instantaneous_power_consumed", [("phase", "l2")]⟩,
   ⟨"instantaneous_power_consumed", [("phase", "l3")]⟩,
   ⟨"instantaneous_power_generated", [("phase", "l1")]⟩,
   ⟨"instantaneous_power_generated", [("phase", "l2")]⟩,
   ⟨"instantaneous_power_generated", [("phase", "l3")]⟩,
   ⟨"instantaneous_current", [("phase", "l1")]⟩,
   ⟨"instantaneous_current", [("phase", "l2")]⟩,
   ⟨"instantaneous_current", [("phase", "l3")]⟩,
   ⟨"instantaneous_voltage", [("phase", "l1")]⟩,
   ⟨"instantaneous_voltage", [("phase", "l2")]⟩,
   ⟨"instantaneous_voltage", [("phase", "l3")]⟩,
   ⟨"tariff_indicator", []⟩,
   ⟨"electricity_consumed", [("tariff", "1")]⟩,
   ⟨"electricity_consumed", [("tariff", "2")]⟩,
   ⟨"electricity_generated", [("tariff", "1")]⟩,
   ⟨"electricity_generated", [("tariff", "2")]⟩,
   ⟨"gas_consumed", []⟩]

/-! ## Lemmas on the switch and the loop body -/

theorem switchCase_gauge {t : OBISType} {c : Case} (h : switchCase t = some c) :
    ∃ g, c.gauge = some g ∧ (c.slot = 0 ∨ (c.slot = 1 ∧ t = OBISTypeGasDelivered)) := by
  cases t <;> simp only [switchCase, Option.some.injEq, reduceCtorEq] at h <;> subst h <;>
    first
      | exact ⟨_, rfl, Or.inl rfl⟩
      | exact ⟨_, rfl, Or.inr ⟨rfl, rfl⟩⟩

theorem getElem?_zero_of_getElem? {α : Type} {xs : List α} {n : Nat} {v : α}
    (h : xs[n]? = some v) : ∃ v0, xs[0]? = some v0 := by
  cases xs with
  | nil => simp at h
  | cons x xs => exact ⟨x, by simp⟩

theorem readObject_of_case (st : MetricState) {obj : TelegramObject} {c : Case} {g : Gauge}
    {v : TelegramValue} (hc : switchCase obj.Type_ = some c) (hg : c.gauge = some g)
    (hv : obj.Values[c.slot]? = some v) :
    readObject st obj = .done (g.Set (floatValue v.Value) st) := by
  obtain ⟨v0, h0⟩ := getElem?_zero_of_getElem? hv
  simp [readObject, h0, hc, hg, hv]

theorem Gauge.Set_self (g : Gauge) (val : Float64) (st : MetricState) :
    g.Set val st g.key = some val := by
  simp [Gauge.Set]

theorem Gauge.Set_other (g : Gauge) (val : Float64) (st : MetricState) {k : MetricKey}
    (h : k ≠ g.key) : g.Set val st k = st k := by
  simp [Gauge.Set, h]

/-! ## C1 -/

/-- C1: for every OBIS type that has a `case` in the switch and every object
of that type whose value list has the slot the case reads, the loop body, from
any gauge values, completes and leaves the gauge of that case holding exactly
`floatValue` of the text in that slot. -/
theorem mapped_reading_sets_key (st : MetricState) (obj : TelegramObject) (c : Case)
    (v : TelegramValue) (hc : switchCase obj.Type_ = some c)
    (hv : obj.Values[c.slot]? = some v) :
    ∃ g, c.gauge = some g ∧
      readObject st obj = .done (g.Set (floatValue v.Value) st) ∧
      (readObject st obj).state g.key = some (floatValue v.Value) := by
  obtain ⟨g, hg, _⟩ := switchCase_gauge hc
  refine ⟨g, hg, readObject_of_case st hc hg hv, ?_⟩
  rw [readObject_of_case st hc hg hv]
  exact Gauge.Set_self g _ st

/-- Scenario 1 of the specification: a power-delivered-L1 reading with the raw
text "00.244" leaves `instantaneous_power_consumed` for phase l1 at 0.244
(bit pattern 0x3FCF3B645A1CAC08). -/
theorem mapped_reading_sets_key_witness :
    (readObject initialState
        ⟨OBISTypeInstantaneousPowerDeliveredL1, [⟨"00.244", "kW"⟩]⟩).state
      ⟨"instantaneous_power_consumed", [("phase", "l1")]⟩ = some ⟨0x3FCF3B645A1CAC08⟩ := by
  obtain ⟨g, hg, _, h⟩ := mapped_reading_sets_key initialState
    ⟨OBISTypeInstantaneousPowerDeliveredL1, [⟨"00.244", "kW"⟩]⟩
    ⟨powerConsumed.With [("phase", "l1")], 0⟩ ⟨"00.244", "kW"⟩ rfl rfl
  have hk : g = ⟨⟨"instantaneous_power_consumed", [("phase", "l1")]⟩⟩ :=
    (Option.some.inj hg).symm
  have hf : floatValue "00.244" = ⟨0x3FCF3B645A1CAC08⟩ := by decide
  rw [hk, hf] at h
  exact h

/-! ## C2 -/

theorem readObject_eq_effect (st : MetricState) (obj : TelegramObject) :
    readObject st obj =
      match effect obj with
      | none => .panic st
      | some none => .done st
      | some (some (g, val)) => .done (g.Set val st) := by
  unfold readObject effect
  split
  · rfl
  · split
    · rfl
    · split
      · rfl
      · rfl

theorem effect_isSome_of_longEnough {obj : TelegramObject} (h : longEnough obj) :
    (effect obj).isSome = true := by
  obtain ⟨h1, h2⟩ := h
  obtain ⟨v0, hv0⟩ : ∃ v0, obj.Values[0]? = some v0 :=
    ⟨_, List.getElem?_eq_getElem (show 0 < obj.Values.length by omega)⟩
  cases hc : switchCase obj.Type_ with
  | none => simp [effect, hv0, hc]
  | some c =>
    obtain ⟨g, hg, hs⟩ := switchCase_gauge hc
    have hlt : c.slot < obj.Values.length := by
      rcases hs with hs | ⟨hs, ht⟩
      · omega
      · have := h2 ht
        omega
    obtain ⟨v, hv⟩ : ∃ v, obj.Values[c.slot]? = some v := ⟨_, List.getElem?_eq_getElem hlt⟩
    simp [effect, hv0, hc, hg, hv]

theorem effect_eq_none_of_not_longEnough {obj : TelegramObject} (h : ¬ longEnough obj) :
    effect obj = none := by
  by_cases h1 : 1 ≤ obj.Values.length
  · have h2 : ¬ (obj.Type_ = OBISTypeGasDelivered → 2 ≤ obj.Values.length) :=
      fun h2 => h ⟨h1, h2⟩
    rw [Classical.not_imp] at h2
    obtain ⟨ht, hlen⟩ := h2
    obtain ⟨v0, hv0⟩ : ∃ v0, obj.Values[0]? = some v0 :=
      ⟨_, List.getElem?_eq_getElem (show 0 < obj.Values.length by omega)⟩
    have hv1 : obj.Values[1]? = none := List.getElem?_eq_none (by omega)
    simp [effect, hv0, ht, switchCase, hv1]
  · have hv0 : obj.Values[0]? = none := List.getElem?_eq_none (by omega)
    simp [effect, hv0]

/-- C2, as far as the code goes: the loop body has no bounds check, so it
completes without a panic for every object, mapped or unmapped, whose value
list is not empty and, for a gas-delivered object, has at least two values. -/
theorem long_enough_reading_completes (st : MetricState) (obj : TelegramObject)
    (h0 : 1 ≤ obj.Values.length)
    (hgas : obj.Type_ = OBISTypeGasDelivered → 2 ≤ obj.Values.length) :
    (readObject st obj).panicked = false := by
  have h := @effect_isSome_of_longEnough obj ⟨h0, hgas⟩
  rw [readObject_eq_effect]
  cases he : effect obj with
  | none => simp [he] at h
  | some w =>
    cases w with
    | none => rfl
    | some gv => rfl

/-- An unmapped object with one value and a gas-delivered object with two
values both complete. -/
theorem long_enough_reading_completes_witness :
    (readObject initialState ⟨other 7, [⟨"", ""⟩]⟩).panicked = false ∧
    (readObject initialState
      ⟨OBISTypeGasDelivered, [⟨"210101120000W", ""⟩, ⟨"001.234", "m3"⟩]⟩).panicked = false :=
  ⟨long_enough_reading_completes initialState ⟨other 7, [⟨"", ""⟩]⟩ (by decide) (by decide),
   long_enough_reading_completes initialState
    ⟨OBISTypeGasDelivered, [⟨"210101120000W", ""⟩, ⟨"001.234", "m3"⟩]⟩ (by decide) (by decide)⟩

/-- C2 fails as stated: an object with an empty value list panics at the debug
log, whether its type has a case (here power-delivered-L1) or not (`other 7`),
and a gas-delivered object with a single value panics at `obj.Values[1]`. -/
theorem short_reading_panics :
    (readObject initialState ⟨other 7, []⟩).panicked = true ∧
    (readObject initialState ⟨OBISTypeInstantaneousPowerDeliveredL1, []⟩).panicked = true ∧
    (readObject initialState ⟨OBISTypeGasDelivered, [⟨"001.234", "m3"⟩]⟩).panicked = true :=
  ⟨rfl, rfl, rfl⟩

/-- The loop body panics exactly on the objects whose value list is too
short. -/
theorem readObject_panicked_iff (st : MetricState) (obj : TelegramObject) :
    (readObject st obj).panicked = true ↔ ¬ longEnough obj := by
  constructor
  · intro hp hl
    have h := effect_isSome_of_longEnough hl
    rw [readObject_eq_effect] at hp
    cases he : effect obj with
    | none => simp [he] at h
    | some w =>
      rw [he] at hp
      cases w <;> exact Bool.false_ne_true hp
  · intro h
    rw [readObject_eq_effect, effect_eq_none_of_not_longEnough h]
    rfl

/-! ## Values of the conversion on sample inputs -/

/-- Decimal inputs: leading zeros, a fraction, the largest finite value, the
smallest subnormal, underflow to zero, negative zero, an underscore between
digits, and two ties (to even). -/
theorem ParseFloat_decimal_samples :
    strconv.ParseFloat "00.244" = (⟨0x3FCF3B645A1CAC08⟩, none) ∧
    strconv.ParseFloat "1.7976931348623157e308" = (⟨0x7FEFFFFFFFFFFFFF⟩, none) ∧
    strconv.ParseFloat "4.9e-324" = (⟨1⟩, none) ∧
    strconv.ParseFloat "1e-400" = (⟨0⟩, none) ∧
    strconv.ParseFloat "-0" = (⟨0x8000000000000000⟩, none) ∧
    strconv.ParseFloat "1_000" = (⟨0x408F400000000000⟩, none) ∧
    strconv.ParseFloat "9007199254740993" = (⟨0x4340000000000000⟩, none) ∧
    strconv.ParseFloat "9007199254740995" = (⟨0x4340000000000002⟩, none) := by
  decide!

/-- Hexadecimal inputs, infinities and NaN. -/
theorem ParseFloat_special_samples :
    strconv.ParseFloat "0x1p-2" = (⟨0x3FD0000000000000⟩, none) ∧
    strconv.ParseFloat "0x1.fffffffffffffp1023" = (⟨0x7FEFFFFFFFFFFFFF⟩, none) ∧
    strconv.ParseFloat "0x1p1024" = (Float64.inf false, some .ErrRange) ∧
    strconv.ParseFloat "+Infinity" = (Float64.inf false, none) ∧
    strconv.ParseFloat "-inf" = (Float64.inf true, none) ∧
    strconv.ParseFloat "NaN" = (Float64.nan, none) := by
  decide!

/-- Rejected inputs: syntax errors come with zero, range errors with an
infinity. A byte that is not valid UTF-8 is a syntax error. -/
theorem ParseFloat_rejected_samples :
    strconv.ParseFloat "" = (Float64.zero, some .ErrSyntax) ∧
    strconv.ParseFloat "12,5" = (Float64.zero, some .ErrSyntax) ∧
    strconv.ParseFloat "1e400x" = (Float64.zero, some .ErrSyntax) ∧
    strconv.ParseFloat "infinit" = (Float64.zero, some .ErrSyntax) ∧
    strconv.ParseFloat ⟨[49, 0xFF]⟩ = (Float64.zero, some .ErrSyntax) ∧
    strconv.ParseFloat "1e400" = (Float64.inf false, some .ErrRange) ∧
    strconv.ParseFloat "-1.7976931348623159e308" = (Float64.inf true, some .ErrRange) := by
  decide!

/-- Inputs of more than 800 digits that reach the decimal fallback: it keeps
800 digits and, without a point among them, counts 800 digits before the
point. The first input, 9007199254740993 followed by 784 zeros and a 1,
times 10 ^ -785, comes out a tenth of its value; the second,
1797693134862315808 followed by 781 zeros and a 1, times 10 ^ -492, is out
of range and comes out finite, a tenth of its value, without an error. -/
theorem ParseFloat_long_samples :
    strconv.ParseFloat "900719925474099300000000000000000000000000000000000000000000000000000000000000000000000000000000000000000000000000000000000000000000000000000000000000000000000000000000000000000000000000000000000000000000000000000000000000000000000000000000000000000000000000000000000000000000000000000000000000000000000000000000000000000000000000000000000000000000000000000000000000000000000000000000000000000000000000000000000000000000000000000000000000000000000000000000000000000000000000000000000000000000000000000000000000000000000000000000000000000000000000000000000000000000000000000000000000000000000000000000000000000000000000000000000000000000000000000000000000000000000000000000000000000000000000000000000000000000000000000000000000000000000000000000000000000000000000000000000000000000000000000000000000001e-785" = (⟨0x430999999999999A⟩, none) ∧
    strconv.ParseFloat "179769313486231580800000000000000000000000000000000000000000000000000000000000000000000000000000000000000000000000000000000000000000000000000000000000000000000000000000000000000000000000000000000000000000000000000000000000000000000000000000000000000000000000000000000000000000000000000000000000000000000000000000000000000000000000000000000000000000000000000000000000000000000000000000000000000000000000000000000000000000000000000000000000000000000000000000000000000000000000000000000000000000000000000000000000000000000000000000000000000000000000000000000000000000000000000000000000000000000000000000000000000000000000000000000000000000000000000000000000000000000000000000000000000000000000000000000000000000000000000000000000000000000000000000000000000000000000000000000000000000000000000000000000001e-492" = (⟨0x7FB9999999999999⟩, none) := by
  decide!

/-! ## C3 -/

theorem strconv.assemble_inf (neg : Bool) :
    strconv.assemble 0 1024 neg = Float64.inf neg ∧
      strconv.assemble (2 ^ 52) (1023 + 1) neg = Float64.inf neg := by
  cases neg <;> decide

theorem strconv.atofHex_overflow (mantissa : Nat) (exp : Int) (neg trunc : Bool)
    (h : (strconv.atofHex mantissa exp neg trunc).2 = true) :
    (strconv.atofHex mantissa exp neg trunc).1 = Float64.inf neg := by
  unfold strconv.atofHex at h ⊢
  by_cases hr : 1023 < (strconv.atofHexRound mantissa exp trunc).2
  · simp only [hr, if_true]
    exact (strconv.assemble_inf neg).2
  · simp only [hr, if_false] at h
    exact absurd h Bool.false_ne_true

theorem strconv.floatBits_overflow (d : strconv.Decimal) (h : d.floatBits.2 = true) :
    d.floatBits.1 = Float64.inf d.neg := by
  unfold strconv.Decimal.floatBits at h ⊢
  cases hm : d.mantExp with
  | none => exact (strconv.assemble_inf d.neg).1
  | some me =>
    rw [hm] at h
    exact absurd h Bool.false_ne_true

theorem strconv.inf_cases (neg : Bool) :
    Float64.inf neg = Float64.inf false ∨ Float64.inf neg = Float64.inf true := by
  cases neg
  · exact Or.inl rfl
  · exact Or.inr rfl

theorem strconv.hexPath_error (r : strconv.Read) :
    (strconv.hexPath r).2 ≠ some .ErrSyntax ∧
    ((strconv.hexPath r).2 = some .ErrRange → (strconv.hexPath r).1 = Float64.inf r.neg) := by
  unfold strconv.hexPath
  by_cases hovf : (strconv.atofHex r.mantissa r.exp r.neg r.trunc).2 = true
  · simp only [hovf, if_true]
    exact ⟨by simp, fun _ => strconv.atofHex_overflow _ _ _ _ hovf⟩
  · simp only [hovf]
    exact ⟨by simp, by simp⟩

theorem strconv.slowPath_error (read : List Nat) :
    ((strconv.slowPath read).2 = some .ErrSyntax → (strconv.slowPath read).1 = Float64.zero) ∧
    ((strconv.slowPath read).2 = some .ErrRange →
      (strconv.slowPath read).1 = Float64.inf false ∨
        (strconv.slowPath read).1 = Float64.inf true) := by
  unfold strconv.slowPath
  cases hset : strconv.Decimal.set read with
  | none => exact ⟨fun _ => rfl, by simp⟩
  | some d =>
    by_cases hovf : d.floatBits.2 = true
    · simp only [hovf, if_true]
      refine ⟨by simp, fun _ => ?_⟩
      rw [strconv.floatBits_overflow d hovf]
      exact strconv.inf_cases _
    · simp only [hovf]
      exact ⟨by simp, by simp⟩

theorem strconv.convert_error (s : List Nat) (r : strconv.Read) :
    ((strconv.convert s r).2 = some .ErrSyntax → (strconv.convert s r).1 = Float64.zero) ∧
    ((strconv.convert s r).2 = some .ErrRange →
      (strconv.convert s r).1 = Float64.inf false ∨
        (strconv.convert s r).1 = Float64.inf true) := by
  unfold strconv.convert
  by_cases hhex : r.hex = true
  · simp only [hhex, if_true]
    refine ⟨fun h => absurd h (strconv.hexPath_error r).1, fun h => ?_⟩
    rw [(strconv.hexPath_error r).2 h]
    exact strconv.inf_cases _
  · simp only [hhex]
    cases hfast : strconv.fastPath r with
    | some f => exact ⟨by simp, by simp⟩
    | none => exact strconv.slowPath_error _

theorem strconv.atof64_syntax (s : List Nat)
    (h : (strconv.atof64 s).2.2 = some .ErrSyntax) : (strconv.atof64 s).1 = Float64.zero := by
  unfold strconv.atof64 at h ⊢
  cases hs : strconv.special s with
  | some p => rw [hs] at h; simp at h
  | none =>
    cases hr : strconv.readFloat s with
    | none => rfl
    | some r =>
      rw [hs, hr] at h
      exact (strconv.convert_error s r).1 h

theorem strconv.atof64_range (s : List Nat)
    (h : (strconv.atof64 s).2.2 = some .ErrRange) :
    (strconv.atof64 s).1 = Float64.inf false ∨ (strconv.atof64 s).1 = Float64.inf true := by
  unfold strconv.atof64 at h ⊢
  cases hs : strconv.special s with
  | some p => rw [hs] at h; simp at h
  | none =>
    cases hr : strconv.readFloat s with
    | none => rw [hs, hr] at h; simp at h
    | some r =>
      rw [hs, hr] at h
      exact (strconv.convert_error s r).2 h

theorem strconv.ParseFloat_syntax (s : GoString)
    (h : (strconv.ParseFloat s).2 = some .ErrSyntax) :
    (strconv.ParseFloat s).1 = Float64.zero := by
  unfold strconv.ParseFloat at h ⊢
  simp only at h ⊢
  split_ifs at h ⊢ with hn
  · rfl
  · exact strconv.atof64_syntax _ h

theorem strconv.ParseFloat_range (s : GoString)
    (h : (strconv.ParseFloat s).2 = some .ErrRange) :
    (strconv.ParseFloat s).1 = Float64.inf false ∨
      (strconv.ParseFloat s).1 = Float64.inf true := by
  unfold strconv.ParseFloat at h ⊢
  simp only at h ⊢
  split_ifs at h ⊢ with hn
  · simp at h
  · exact strconv.atof64_range _ h

/-- C3, as far as the code goes: `floatValue` drops the error of
`strconv.ParseFloat` and returns the number that came with it. That number is
zero for every string rejected with a syntax error (the empty string among
them), and an infinity for every string rejected as out of range. -/
theorem floatValue_of_rejected (s : GoString) :
    floatValue "" = Float64.zero ∧
    ((strconv.ParseFloat s).2 = some .ErrSyntax → floatValue s = Float64.zero) ∧
    ((strconv.ParseFloat s).2 = some .ErrRange →
      floatValue s = Float64.inf false ∨ floatValue s = Float64.inf true) :=
  ⟨by decide, strconv.ParseFloat_syntax s, strconv.ParseFloat_range s⟩

/-- The text "12,5" is a syntax error and converts to zero; "-1e400" is out of
range and converts to an infinity. -/
theorem floatValue_of_rejected_witness :
    floatValue "12,5" = Float64.zero ∧
    (floatValue "-1e400" = Float64.inf false ∨ floatValue "-1e400" = Float64.inf true) :=
  ⟨(floatValue_of_rejected "12,5").2.1 (by decide),
   (floatValue_of_rejected "-1e400").2.2 (by decide)⟩

/-- C3 fails as stated: "1e400" is rejected by `strconv.ParseFloat` with a
range error, and `floatValue` returns positive infinity for it, not zero. -/
theorem floatValue_out_of_range :
    (strconv.ParseFloat "1e400").2 = some .ErrRange ∧
    floatValue "1e400" = Float64.inf false ∧
    floatValue "1e400" ≠ Float64.zero := by
  decide

/-! ## C4 -/

/-- C4: for every object whose type has no case in the switch, the loop body
leaves every gauge with the value it had: no gauge is set (and when the value
list is not empty the body completes). -/
theorem unmapped_reading_sets_nothing (st : MetricState) (obj : TelegramObject)
    (h : switchCase obj.Type_ = none) :
    (readObject st obj).state = st ∧
      (obj.Values ≠ [] → readObject st obj = .done st) := by
  obtain ⟨t, vs⟩ := obj
  simp only at h
  cases vs with
  | nil => exact ⟨rfl, fun hne => absurd rfl hne⟩
  | cons v vs =>
    have hr : readObject st ⟨t, v :: vs⟩ = .done st := by
      simp [readObject, h]
    exact ⟨by rw [hr]; rfl, fun _ => hr⟩

/-- An object of an unmapped type with one value leaves the initial gauge
values as they are. -/
theorem unmapped_reading_sets_nothing_witness :
    (readObject initialState ⟨other 7, [⟨"12.5", "kWh"⟩]⟩).state = initialState ∧
      (([⟨"12.5", "kWh"⟩] : List TelegramValue) ≠ [] →
        readObject initialState ⟨other 7, [⟨"12.5", "kWh"⟩]⟩ = .done initialState) :=
  unmapped_reading_sets_nothing initialState ⟨other 7, [⟨"12.5", "kWh"⟩]⟩ rfl

/-! ## The loop over well-formed objects is a fold -/

theorem applyEffect_apply {obj : TelegramObject} (h : longEnough obj) (st : MetricState)
    (k : MetricKey) :
    applyEffect st obj k = if keyOf obj.Type_ = some k then converted obj else st k := by
  obtain ⟨h1, h2⟩ := h
  obtain ⟨v0, hv0⟩ : ∃ v0, obj.Values[0]? = some v0 :=
    ⟨_, List.getElem?_eq_getElem (show 0 < obj.Values.length by omega)⟩
  cases hc : switchCase obj.Type_ with
  | none => simp [applyEffect, effect, keyOf, hv0, hc]
  | some c =>
    obtain ⟨g, hg, hs⟩ := switchCase_gauge hc
    have hlt : c.slot < obj.Values.length := by
      rcases hs with hs | ⟨hs, ht⟩
      · omega
      · have := h2 ht
        omega
    obtain ⟨v, hv⟩ : ∃ v, obj.Values[c.slot]? = some v := ⟨_, List.getElem?_eq_getElem hlt⟩
    by_cases hk : k = g.key
    · subst hk
      simp [applyEffect, effect, keyOf, converted, slotOf, hv0, hc, hg, hv, Gauge.Set]
    · have hk2 : ¬ g.key = k := fun h => hk h.symm
      simp [applyEffect, effect, keyOf, hv0, hc, hg, hv, Gauge.Set, hk, hk2]

theorem readObjects_append (st : MetricState) (xs ys : List TelegramObject) :
    readObjects st (xs ++ ys) =
      match readObjects st xs with
      | .done st1 => readObjects st1 ys
      | .panic st1 => .panic st1 := by
  induction xs generalizing st with
  | nil => rfl
  | cons x xs ih =>
    simp only [List.cons_append, readObjects]
    cases readObject st x with
    | done st1 => exact ih st1
    | panic st1 => rfl

theorem readFromP1_eq_readObjects (st : MetricState) (incoming : List Telegram) :
    readFromP1 st incoming = readObjects st (readings incoming) := by
  induction incoming generalizing st with
  | nil => rfl
  | cons tgram incoming ih =>
    simp only [readFromP1, readings, List.map_cons, List.flatten_cons, readObjects_append]
    cases readObjects st tgram.Objects with
    | done st1 => exact ih st1
    | panic st1 => rfl

theorem readObjects_of_longEnough (st : MetricState) (objs : List TelegramObject)
    (h : ∀ obj ∈ objs, longEnough obj) :
    readObjects st objs = .done (objs.foldl applyEffect st) := by
  induction objs generalizing st with
  | nil => rfl
  | cons x xs ih =>
    have hx := effect_isSome_of_longEnough (h x (List.mem_cons_self x xs))
    have hxs : ∀ obj ∈ xs, longEnough obj := fun o ho => h o (List.mem_cons_of_mem x ho)
    simp only [readObjects, List.foldl_cons, readObject_eq_effect, applyEffect]
    cases he : effect x with
    | none => simp [he] at hx
    | some w =>
      cases w with
      | none => exact ih st hxs
      | some gv => exact ih _ hxs

theorem foldl_applyEffect_apply (st : MetricState) (objs : List TelegramObject)
    (h : ∀ obj ∈ objs, longEnough obj) (k : MetricKey) :
    objs.foldl applyEffect st k =
      match lastWriter k objs with
      | some obj => converted obj
      | none => st k := by
  induction objs using List.reverseRecOn with
  | nil => rfl
  | append_singleton xs x ih =>
    have hx : longEnough x := h x (by simp)
    have hxs : ∀ obj ∈ xs, longEnough obj := fun o ho => h o (by simp [ho])
    rw [List.foldl_append, List.foldl_cons, List.foldl_nil, applyEffect_apply hx, ih hxs]
    by_cases hk : keyOf x.Type_ = some k
    · simp [lastWriter, List.filter_append, hk]
    · simp [lastWriter, List.filter_append, hk]

/-! ## C5 -/

/-- C5, as far as the code goes: for every finite sequence of telegrams whose
objects all have a value list long enough for the indices read, the loop,
from any gauge values, runs to the end of the sequence, and every key then
holds the converted value of the last object of the sequence whose type maps
to that key, or its initial value when no object maps to it. -/
theorem last_writer_wins (st : MetricState) (incoming : List Telegram)
    (h : ∀ tgram ∈ incoming, ∀ obj ∈ tgram.Objects, longEnough obj) :
    ∃ st1, readFromP1 st incoming = .done st1 ∧
      ∀ k, st1 k =
        match lastWriter k (readings incoming) with
        | some obj => converted obj
        | none => st k := by
  have hall : ∀ obj ∈ readings incoming, longEnough obj := by
    intro obj hobj
    simp only [readings, List.mem_flatten, List.mem_map] at hobj
    obtain ⟨l, ⟨tgram, htg, rfl⟩, hmem⟩ := hobj
    exact h tgram htg obj hmem
  refine ⟨(readings incoming).foldl applyEffect st, ?_, ?_⟩
  · rw [readFromP1_eq_readObjects, readObjects_of_longEnough st _ hall]
  · intro k
    exact foldl_applyEffect_apply st _ hall k

/-- Scenario 3 of the specification: two successive telegrams that set the
tariff indicator to "1" and then to "2" leave `tariff_indicator` at 2 (bit
pattern 0x4000000000000000). -/
theorem last_writer_wins_witness :
    ∃ st1, readFromP1 initialState
        [⟨[⟨OBISTypeElectricityTariffIndicator, [⟨"1", ""⟩]⟩]⟩,
         ⟨[⟨OBISTypeElectricityTariffIndicator, [⟨"2", ""⟩]⟩]⟩] = .done st1 ∧
      st1 ⟨"tariff_indicator", []⟩ = some ⟨0x4000000000000000⟩ := by
  obtain ⟨st1, hdone, hk⟩ := last_writer_wins initialState
    [⟨[⟨OBISTypeElectricityTariffIndicator, [⟨"1", ""⟩]⟩]⟩,
     ⟨[⟨OBISTypeElectricityTariffIndicator, [⟨"2", ""⟩]⟩]⟩] (by decide)
  refine ⟨st1, hdone, ?_⟩
  rw [hk ⟨"tariff_indicator", []⟩]
  decide

/-- C5 fails as stated: in the sequence tariff "1", an object with an empty
value list, tariff "2", the loop panics at the second object, so the last
object that maps to `tariff_indicator` is never applied and the gauge stays
at the value of "1". -/
theorem later_reading_lost_after_panic :
    lastWriter tariffIndicator.key
        (readings [⟨[⟨OBISTypeElectricityTariffIndicator, [⟨"1", ""⟩]⟩, ⟨other 7, []⟩,
          ⟨OBISTypeElectricityTariffIndicator, [⟨"2", ""⟩]⟩]⟩]) =
      some ⟨OBISTypeElectricityTariffIndicator, [⟨"2", ""⟩]⟩ ∧
    (readFromP1 initialState
        [⟨[⟨OBISTypeElectricityTariffIndicator, [⟨"1", ""⟩]⟩, ⟨other 7, []⟩,
          ⟨OBISTypeElectricityTariffIndicator, [⟨"2", ""⟩]⟩]⟩]).state tariffIndicator.key =
      some (floatValue "1") ∧
    some (floatValue "1") ≠
      converted ⟨OBISTypeElectricityTariffIndicator, [⟨"2", ""⟩]⟩ := by
  refine ⟨by decide, ?_, by decide⟩
  simp [readFromP1, readObjects, readObject, switchCase, Outcome.state, Gauge.Set]

/-! ## C6 -/

theorem applyEffect_comm {a b : TelegramObject} (ha : longEnough a) (hb : longEnough b)
    (hab : keyOf a.Type_ = keyOf b.Type_ → converted a = converted b) (st : MetricState) :
    applyEffect (applyEffect st a) b = applyEffect (applyEffect st b) a := by
  funext k
  rw [applyEffect_apply hb, applyEffect_apply ha, applyEffect_apply ha, applyEffect_apply hb]
  by_cases hka : keyOf a.Type_ = some k
  · by_cases hkb : keyOf b.Type_ = some k
    · simp only [if_pos hka, if_pos hkb]
      exact (hab (hka.trans hkb.symm)).symm
    · simp only [if_pos hka, if_neg hkb, if_false]
  · by_cases hkb : keyOf b.Type_ = some k
    · simp only [if_neg hka, if_pos hkb, if_false]
    · simp only [if_neg hka, if_neg hkb, if_false]

/-- C6, as far as the code goes: for a telegram whose objects all have a
value list long enough for the indices read, and in which any two objects
whose types map to the same key carry the same converted value (so, whenever
no two objects map to the same key), the loop over any permutation of its
objects ends as the loop over the original order does, with the same gauge
values. -/
theorem permuted_telegram_same_state (st : MetricState) (tgram permuted : Telegram)
    (hp : tgram.Objects.Perm permuted.Objects)
    (hlen : ∀ obj ∈ tgram.Objects, longEnough obj)
    (hsame : ∀ a ∈ tgram.Objects, ∀ b ∈ tgram.Objects,
      keyOf a.Type_ = keyOf b.Type_ → converted a = converted b) :
    readFromP1 st [permuted] = readFromP1 st [tgram] := by
  have hlen2 : ∀ obj ∈ permuted.Objects, longEnough obj :=
    fun obj hobj => hlen obj (hp.mem_iff.mpr hobj)
  have hfold : tgram.Objects.foldl applyEffect st = permuted.Objects.foldl applyEffect st :=
    hp.foldl_eq' (fun x hx y hy z => applyEffect_comm (hlen x hx) (hlen y hy) (hsame x hx y hy) z)
      st
  simp only [readFromP1, readObjects_of_longEnough st _ hlen,
    readObjects_of_longEnough st _ hlen2, hfold]

/-- A telegram with a gas reading, an unmapped reading and two tariff readings
of the same value ("2" and "0002") ends the same in two different orders. -/
theorem permuted_telegram_same_state_witness :
    readFromP1 initialState
        [⟨[⟨OBISTypeGasDelivered, [⟨"210101120000W", ""⟩, ⟨"001.234", "m3"⟩]⟩,
           ⟨other 7, [⟨"x", ""⟩]⟩,
           ⟨OBISTypeElectricityTariffIndicator, [⟨"2", ""⟩]⟩,
           ⟨OBISTypeElectricityTariffIndicator, [⟨"0002", ""⟩]⟩]⟩] =
      readFromP1 initialState
        [⟨[⟨OBISTypeElectricityTariffIndicator, [⟨"0002", ""⟩]⟩,
           ⟨OBISTypeElectricityTariffIndicator, [⟨"2", ""⟩]⟩,
           ⟨OBISTypeGasDelivered, [⟨"210101120000W", ""⟩, ⟨"001.234", "m3"⟩]⟩,
           ⟨other 7, [⟨"x", ""⟩]⟩]⟩] :=
  permuted_telegram_same_state initialState
    ⟨[⟨OBISTypeElectricityTariffIndicator, [⟨"0002", ""⟩]⟩,
      ⟨OBISTypeElectricityTariffIndicator, [⟨"2", ""⟩]⟩,
      ⟨OBISTypeGasDelivered, [⟨"210101120000W", ""⟩, ⟨"001.234", "m3"⟩]⟩,
      ⟨other 7, [⟨"x", ""⟩]⟩]⟩
    ⟨[⟨OBISTypeGasDelivered, [⟨"210101120000W", ""⟩, ⟨"001.234", "m3"⟩]⟩,
      ⟨other 7, [⟨"x", ""⟩]⟩,
      ⟨OBISTypeElectricityTariffIndicator, [⟨"2", ""⟩]⟩,
      ⟨OBISTypeElectricityTariffIndicator, [⟨"0002", ""⟩]⟩]⟩
    (by decide) (by decide) (by decide)

/-- C6 fails as stated. A telegram with two tariff-indicator objects, "1" then
"2", ends with `tariff_indicator` at the value of "2", and its permutation
"2" then "1" at the value of "1". And a telegram with an object whose value
list is empty ends at the panic with whatever was set before it: after
tariff "1" then the empty object the gauge holds the value of "1", after the
empty object then tariff "1" it still holds its initial zero. -/
theorem permutation_changes_state :
    List.Perm
      [(⟨OBISTypeElectricityTariffIndicator, [⟨"1", ""⟩]⟩ : TelegramObject),
        ⟨OBISTypeElectricityTariffIndicator, [⟨"2", ""⟩]⟩]
      [⟨OBISTypeElectricityTariffIndicator, [⟨"2", ""⟩]⟩,
        ⟨OBISTypeElectricityTariffIndicator, [⟨"1", ""⟩]⟩] ∧
    (readFromP1 initialState
        [⟨[⟨OBISTypeElectricityTariffIndicator, [⟨"1", ""⟩]⟩,
           ⟨OBISTypeElectricityTariffIndicator, [⟨"2", ""⟩]⟩]⟩]).state tariffIndicator.key =
      some ⟨0x4000000000000000⟩ ∧
    (readFromP1 initialState
        [⟨[⟨OBISTypeElectricityTariffIndicator, [⟨"2", ""⟩]⟩,
           ⟨OBISTypeElectricityTariffIndicator, [⟨"1", ""⟩]⟩]⟩]).state tariffIndicator.key =
      some ⟨0x3FF0000000000000⟩ ∧
    List.Perm
      [(⟨OBISTypeElectricityTariffIndicator, [⟨"1", ""⟩]⟩ : TelegramObject), ⟨other 7, []⟩]
      [⟨other 7, []⟩, ⟨OBISTypeElectricityTariffIndicator, [⟨"1", ""⟩]⟩] ∧
    (readFromP1 initialState
        [⟨[⟨OBISTypeElectricityTariffIndicator, [⟨"1", ""⟩]⟩,
           ⟨other 7, []⟩]⟩]).state tariffIndicator.key =
      some ⟨0x3FF0000000000000⟩ ∧
    (readFromP1 initialState
        [⟨[⟨other 7, []⟩,
           ⟨OBISTypeElectricityTariffIndicator, [⟨"1", ""⟩]⟩]⟩]).state tariffIndicator.key =
      some ⟨0⟩ := by
  have h1 : floatValue "1" = ⟨0x3FF0000000000000⟩ := by decide
  have h2 : floatValue "2" = ⟨0x4000000000000000⟩ := by decide
  refine ⟨List.Perm.swap _ _ _, ?_, ?_, List.Perm.swap _ _ _, ?_, ?_⟩
  · simp [readFromP1, readObjects, readObject, switchCase, Outcome.state, Gauge.Set, h2]
  · simp [readFromP1, readObjects, readObject, switchCase, Outcome.state, Gauge.Set, h1]
  · simp [readFromP1, readObjects, readObject, switchCase, Outcome.state, Gauge.Set, h1]
  · simp [readFromP1, readObjects, readObject, Outcome.state, initialState, Float64.zero]

/-! ## C7 -/

theorem switchCase_mapped :
    ∀ p ∈ mappedCodes.zip vocabulary,
      switchCase p.1 =
        some ⟨some ⟨p.2⟩, if p.1 = OBISTypeGasDelivered then 1 else 0⟩ := by
  decide

/-- C7: of the eighteen mapped types, paired here with their keys, gas-delivered
is the only one whose case reads slot 1. A gas-delivered object leaves
`gas_consumed` at `floatValue` of the text in slot 1, whatever slot 0 holds;
an object of each of the other seventeen mapped types leaves the key of that
type at `floatValue` of the text in slot 0, whatever the later slots hold. -/
theorem gas_reads_slot_one (st : MetricState) (v0 v1 : TelegramValue)
    (rest : List TelegramValue) :
    (mappedCodes.zip vocabulary).length = 18 ∧
    ((mappedCodes.zip vocabulary).filter fun p => p.1 ≠ OBISTypeGasDelivered).length = 17 ∧
    (OBISTypeGasDelivered, (⟨"gas_consumed", []⟩ : MetricKey)) ∈ mappedCodes.zip vocabulary ∧
    (∀ t c, switchCase t = some c → (c.slot = 1 ↔ t = OBISTypeGasDelivered)) ∧
    readObject st ⟨OBISTypeGasDelivered, v0 :: v1 :: rest⟩ =
      .done (gasConsumed.Set (floatValue v1.Value) st) ∧
    (readObject st ⟨OBISTypeGasDelivered, v0 :: v1 :: rest⟩).state ⟨"gas_consumed", []⟩ =
      some (floatValue v1.Value) ∧
    (∀ p ∈ mappedCodes.zip vocabulary, p.1 ≠ OBISTypeGasDelivered →
      slotOf p.1 = some 0 ∧
      readObject st ⟨p.1, v0 :: rest⟩ =
        .done (Gauge.Set ⟨p.2⟩ (floatValue v0.Value) st) ∧
      (readObject st ⟨p.1, v0 :: rest⟩).state p.2 = some (floatValue v0.Value)) := by
  have hgas : readObject st ⟨OBISTypeGasDelivered, v0 :: v1 :: rest⟩ =
      .done (gasConsumed.Set (floatValue v1.Value) st) :=
    @readObject_of_case st ⟨OBISTypeGasDelivered, v0 :: v1 :: rest⟩ ⟨some gasConsumed, 1⟩
      gasConsumed v1 rfl rfl (by simp)
  refine ⟨rfl, by decide, by decide, ?_, hgas, ?_, ?_⟩
  · intro t c hc
    obtain ⟨g, _, hs⟩ := switchCase_gauge hc
    constructor
    · intro h1
      rcases hs with h0 | ⟨_, ht⟩
      · omega
      · exact ht
    · intro ht
      subst ht
      simp only [switchCase, Option.some.injEq] at hc
      subst hc
      rfl
  · rw [hgas]
    exact Gauge.Set_self gasConsumed _ _
  · intro p hp hne
    have hc := switchCase_mapped p hp
    rw [if_neg hne] at hc
    have hr : readObject st ⟨p.1, v0 :: rest⟩ =
        .done (Gauge.Set ⟨p.2⟩ (floatValue v0.Value) st) :=
      @readObject_of_case st ⟨p.1, v0 :: rest⟩ ⟨some ⟨p.2⟩, 0⟩ ⟨p.2⟩ v0 hc rfl (by simp)
    refine ⟨by simp [slotOf, hc], hr, ?_⟩
    rw [hr]
    exact Gauge.Set_self ⟨p.2⟩ _ _

/-- Scenario 2 of the specification: a gas-delivered reading whose second slot
holds "001.234" leaves `gas_consumed` at 1.234 (bit pattern
0x3FF3BE76C8B43958), and a tariff-1 delivery reading takes slot 0. -/
theorem gas_reads_slot_one_witness :
    (readObject initialState
        ⟨OBISTypeGasDelivered, [⟨"210101120000W", ""⟩, ⟨"001.234", "m3"⟩]⟩).state
      ⟨"gas_consumed", []⟩ = some ⟨0x3FF3BE76C8B43958⟩ ∧
    (readObject initialState
        ⟨OBISTypeElectricityDeliveredTariff1, [⟨"001.234", "kWh"⟩, ⟨"9", ""⟩]⟩).state
      ⟨"electricity_consumed", [("tariff", "1")]⟩ = some ⟨0x3FF3BE76C8B43958⟩ := by
  have hf : floatValue "001.234" = ⟨0x3FF3BE76C8B43958⟩ := by decide
  have h1 := (gas_reads_slot_one initialState ⟨"210101120000W", ""⟩ ⟨"001.234", "m3"⟩
    []).2.2.2.2.2.1
  have h2 := ((gas_reads_slot_one initialState ⟨"001.234", "kWh"⟩ ⟨"", ""⟩
    [⟨"9", ""⟩]).2.2.2.2.2.2
    (OBISTypeElectricityDeliveredTariff1, ⟨"electricity_consumed", [("tariff", "1")]⟩)
    (by decide) (by decide)).2.2
  simp only at h1 h2
  rw [hf] at h1 h2
  exact ⟨h1, h2⟩

/-! ## C8 -/

/-- C8: the switch maps its eighteen OBIS types one-to-one onto the key
vocabulary of the specification. The types with a case are exactly the
eighteen of `mappedCodes`; each has one key; distinct types have distinct
keys; and the keys are exactly the eighteen of `vocabulary`. -/
theorem switch_bijective_on_vocabulary :
    (∀ t, (switchCase t).isSome = true ↔ t ∈ mappedCodes) ∧
    mappedCodes.length = 18 ∧ mappedCodes.Nodup ∧
    vocabulary.length = 18 ∧ vocabulary.Nodup ∧
    (∀ t ∈ mappedCodes, ∃ k ∈ vocabulary, keyOf t = some k) ∧
    (∀ t1 ∈ mappedCodes, ∀ t2 ∈ mappedCodes, keyOf t1 = keyOf t2 → t1 = t2) ∧
    (∀ k ∈ vocabulary, ∃ t ∈ mappedCodes, keyOf t = some k) ∧
    mappedCodes.map keyOf = vocabulary.map some := by
  refine ⟨?_, rfl, by decide, rfl, by decide, by decide, by decide, by decide, by decide⟩
  intro t
  cases t <;> simp [switchCase, mappedCodes]

/-- The voltage-L2 type has its key in the vocabulary, and `gas_consumed` is
the key of a mapped type. -/
theorem switch_bijective_on_vocabulary_witness :
    (∃ k ∈ vocabulary, keyOf OBISTypeInstantaneousVoltageL2 = some k) ∧
    (∃ t ∈ mappedCodes, keyOf t = some ⟨"gas_consumed", []⟩) :=
  ⟨switch_bijective_on_vocabulary.2.2.2.2.2.1 OBISTypeInstantaneousVoltageL2 (by decide),
   switch_bijective_on_vocabulary.2.2.2.2.2.2.2.1 ⟨"gas_consumed", []⟩ (by decide)⟩

/-! ## C9 -/

theorem Gauge.Set_Set (g : Gauge) (val : Float64) (st : MetricState) :
    g.Set val (g.Set val st) = g.Set val st := by
  funext k
  by_cases hk : k = g.key <;> simp [Gauge.Set, hk]

/-- C9: from any gauge values and for any object, the loop over the same
object twice in a row ends as the loop over it once does, with the same gauge
values; the same holds when the two copies arrive in two successive
telegrams. -/
theorem same_reading_twice (st : MetricState) (obj : TelegramObject) :
    readObjects st [obj, obj] = readObjects st [obj] ∧
    readFromP1 st [⟨[obj]⟩, ⟨[obj]⟩] = readFromP1 st [⟨[obj]⟩] := by
  have h : readObjects st [obj, obj] = readObjects st [obj] := by
    simp only [readObjects, readObject_eq_effect]
    cases effect obj with
    | none => rfl
    | some w =>
      cases w with
      | none => rfl
      | some gv =>
        obtain ⟨g, val⟩ := gv
        simp only [Gauge.Set_Set]
  refine ⟨h, ?_⟩
  rw [readFromP1_eq_readObjects, readFromP1_eq_readObjects]
  exact h

end P1Exporter
